import Mathlib

/-!
Shallow embedding of the voice-session core of the Ash app
(single React component, `src/unnamed/part_000`, plus `src/types.ts`).

The embedding models the state that the claims are about:
connection status, thinking/speaking flags, the transcript log,
the pending per-turn transcription buffer, the playback schedule
cursor (`nextStartTime`) and the set of active playback sources.
Nondeterministic inputs of the code (entry ids from `Math.random()`,
timestamps from `Date.now()`, the audio device clock, transport
outcomes) are passed as explicit parameters.  Time values (the device
clock, buffer durations, schedule offsets) are modelled as rationals.
-/

/-- The `ConnectionStatus` enum from `types.ts`. -/
inductive ConnectionStatus where
  | disconnected
  | connecting
  | connected
  | error
deriving DecidableEq, Repr

/-- The `role` field of `TranscriptionEntry` (`'user' | 'model'`). -/
inductive Role where
  | user
  | model
deriving DecidableEq, Repr

/-- The `TranscriptionEntry` record from `types.ts`. -/
structure TranscriptionEntry where
  id : String
  role : Role
  text : String
  timestamp : Int
deriving DecidableEq, Repr

/-- The `transcriptionRef` buffer `{ input: string, output: string }` (line 41). -/
structure PendingTurn where
  input : String
  output : String
deriving DecidableEq, Repr

/-- An `AudioBufferSourceNode` held in `audioSourcesRef`: its scheduled start
time, whether `stop()` on it would throw (it already finished), and whether it
has been told to stop. -/
structure Source where
  start : Rat
  stopFails : Bool
  stopped : Bool
deriving DecidableEq, Repr

/-- The component state the claims are about: React state (`status`,
`isThinking`, `isSpeaking`, `inputValue`, `transcriptions`) and refs
(`sessionRef` as a Boolean "open" flag, `scriptProcessorRef` as a Boolean
"connected" flag, `nextStartTimeRef`, `audioSourcesRef`, `transcriptionRef`). -/
structure AppState where
  status : ConnectionStatus
  isThinking : Bool
  isSpeaking : Bool
  inputValue : String
  transcriptions : List TranscriptionEntry
  sessionOpen : Bool
  scriptProcessorConnected : Bool
  nextStartTime : Rat
  audioSources : List Source
  pending : PendingTurn
deriving DecidableEq, Repr

/-- The whitespace set of JavaScript `String.prototype.trim`
(ECMAScript WhiteSpace plus LineTerminator). -/
def isJsWhitespace (c : Char) : Bool :=
  c.val = 9 || c.val = 10 || c.val = 11 || c.val = 12 || c.val = 13 || c.val = 32 ||
  c.val = 0xA0 || c.val = 0x1680 || (0x2000 ≤ c.val && c.val ≤ 0x200A) ||
  c.val = 0x2028 || c.val = 0x2029 || c.val = 0x202F || c.val = 0x205F ||
  c.val = 0x3000 || c.val = 0xFEFF

/-- JavaScript `String.prototype.trim`: drop whitespace from both ends. -/
def jsTrim (s : String) : String :=
  ⟨((s.data.dropWhile isJsWhitespace).reverse.dropWhile isJsWhitespace).reverse⟩

/-- The `.replace(/[^\x00-\x7F]/g, "")` step of `filterHallucinations`
(line 47): keep exactly the characters of the 7-bit range. -/
def filterNonAscii (s : String) : String :=
  ⟨s.data.filter (fun c => c.val ≤ 0x7F)⟩

/-- The `filterHallucinations` helper (lines 44-48):
`text.replace(/[^\x00-\x7F]/g, "").trim()`. -/
def filterHallucinations (s : String) : String :=
  jsTrim (filterNonAscii s)

/-- One `try { s.stop(); } catch (e) {}` step (lines 94 and 173): a stop
call that throws is swallowed and leaves the source as it was. -/
def tryStop (s : Source) : Source :=
  if s.stopFails then s else { s with stopped := true }

/-- The pass `audioSourcesRef.current.forEach(s => { try { s.stop(); } catch (e) {} })`
over the whole active set, run before the set is cleared. -/
def stopAll (l : List Source) : List Source :=
  l.map tryStop

/-- The `stopSession` callback (lines 82-102): close the transport handle if open,
disconnect the capture processor, stop (failures swallowed) and clear all
active sources, reset the schedule cursor to 0, go to `disconnected` and
clear the speaking and thinking flags.  The per-source stop pass is
`stopAll`; `audioSourcesRef.current.clear()` then discards the stopped
sources, so the post-state holds the empty set. -/
def stopSession (s : AppState) : AppState :=
  { s with
    sessionOpen := false
    scriptProcessorConnected := false
    audioSources := []
    nextStartTime := 0
    status := .disconnected
    isSpeaking := false
    isThinking := false }

/-- The `onerror` transport callback (line 202): `() => stopSession()`. -/
def onerror (s : AppState) : AppState := stopSession s

/-- The `onclose` transport callback (line 203): `() => stopSession()`. -/
def onclose (s : AppState) : AppState := stopSession s

/-- The `startSession` entry point (lines 104-211).  The two fallible awaited steps the
claims mention are the microphone-permission acquisition
(`getUserMedia`, line 107) and the transport connect (`ai.live.connect`
/ `await sessionPromise`, lines 125-206); their outcomes are the
parameters `micOk` and `connectOk`.  The body first sets status to
`connecting`; any throw lands in the catch (lines 207-210), which only
sets status to `error`.  On success `onopen` fires: status `connected`,
capture processor connected, and the resolved handle stored. -/
def startSession (s : AppState) (micOk connectOk : Bool) : AppState :=
  let s1 := { s with status := ConnectionStatus.connecting }
  if micOk = false then
    { s1 with status := ConnectionStatus.error }
  else if connectOk = false then
    { s1 with status := ConnectionStatus.error }
  else
    { s1 with
      status := ConnectionStatus.connected
      scriptProcessorConnected := true
      sessionOpen := true }

/-- One `LiveServerMessage` as the `onmessage` handler reads it
(lines 152-201): optional inline audio (already decoded; we keep only the
buffer's duration), the `interrupted` flag, optional output / input
transcription fragments, and the `turnComplete` flag. -/
structure ServerMessage where
  audioDuration : Option Rat
  interrupted : Bool
  outputTranscription : Option String
  inputTranscription : Option String
  turnComplete : Bool
deriving DecidableEq, Repr

/-- A message carrying only an audio chunk of the given duration. -/
def audioMsg (d : Rat) : ServerMessage :=
  ⟨some d, false, none, none, false⟩

/-- A message carrying only the `interrupted` signal. -/
def interruptedMsg : ServerMessage :=
  ⟨none, true, none, none, false⟩

/-- A message carrying only an input-transcription fragment. -/
def inputFragMsg (t : String) : ServerMessage :=
  ⟨none, false, none, some t, false⟩

/-- A message carrying only an output-transcription fragment. -/
def outputFragMsg (t : String) : ServerMessage :=
  ⟨none, false, some t, none, false⟩

/-- A message carrying only `turnComplete`. -/
def turnCompleteMsg : ServerMessage :=
  ⟨none, false, none, none, true⟩

/-- The `onmessage` callback (lines 152-201), with the device clock
(`context.currentTime`), the fresh entry ids (`Math.random().toString()`)
and the timestamp (`Date.now()`) passed in.  The four branches run in
code order on one message:
audio chunk (155-169), interrupted (172-177), transcription fragments
(179-184, output else input), turn complete (186-200). -/
def onmessage (s : AppState) (m : ServerMessage) (clock : Rat)
    (idIn idOut : String) (ts : Int) : AppState :=
  let s1 :=
    match m.audioDuration with
    | some d =>
      let st := max s.nextStartTime clock
      { s with
        isThinking := false
        isSpeaking := true
        nextStartTime := st + d
        audioSources := s.audioSources ++ [⟨st, false, false⟩] }
    | none => s
  let s2 :=
    if m.interrupted then
      { s1 with
        audioSources := []
        nextStartTime := 0
        isSpeaking := false }
    else s1
  let s3 :=
    match m.outputTranscription with
    | some t => { s2 with pending := { s2.pending with output := s2.pending.output ++ t } }
    | none =>
      match m.inputTranscription with
      | some t =>
        { s2 with
          pending := { s2.pending with input := s2.pending.input ++ t }
          isThinking := true }
      | none => s2
  if m.turnComplete then
    let cleanedIn := filterHallucinations s3.pending.input
    let cleanedOut := filterHallucinations s3.pending.output
    let s4 :=
      if cleanedIn ≠ "" ∨ cleanedOut ≠ "" then
        { s3 with transcriptions :=
            s3.transcriptions
              ++ (if cleanedIn ≠ "" then [⟨idIn, Role.user, cleanedIn, ts⟩] else [])
              ++ (if cleanedOut ≠ "" then [⟨idOut, Role.model, cleanedOut, ts⟩] else []) }
      else s3
    { s4 with pending := ⟨"", ""⟩, isThinking := false }
  else s3

/-- The `handleTextEnter` entry point (lines 213-240), with the outcome of the awaited
`chat.sendMessage` request passed in (`some reply` on success with reply
text `response.text || ''`, `none` when the request rejects), and the
fresh ids and timestamps as parameters.  Guard (214): an input whose
trim is empty returns at once.  Otherwise the raw user text is appended
and thinking is set; on success the filtered reply is appended as a model
entry; the catch only logs; the finally clears thinking either way. -/
def handleTextEnter (s : AppState) (text : String) (reply : Option String)
    (idU idM : String) (tsU tsM : Int) : AppState :=
  if jsTrim text = "" then s
  else
    let s1 :=
      { s with
        transcriptions :=
          s.transcriptions ++ [(⟨idU, Role.user, text, tsU⟩ : TranscriptionEntry)]
        inputValue := ""
        isThinking := true }
    match reply with
    | some r =>
      { s1 with
        transcriptions :=
          s1.transcriptions
            ++ [(⟨idM, Role.model, filterHallucinations r, tsM⟩ : TranscriptionEntry)]
        isThinking := false }
    | none => { s1 with isThinking := false }

/-- Feed a list of audio-only messages through `onmessage` in arrival
order; each pair is (device clock at processing time, decoded buffer
duration). -/
def processChunks (s : AppState) : List (Rat × Rat) → AppState
  | [] => s
  | (clk, d) :: rest => processChunks (onmessage s (audioMsg d) clk "" "" 0) rest

/-- The scheduled start times of the sources held in the state, in
scheduling order. -/
def startsOf (s : AppState) : List Rat :=
  s.audioSources.map Source.start

/-- The start-time recurrence the audio branch implements:
`start = max cursor clock`, then `cursor := start + d`. -/
def playStarts (cursor : Rat) : List (Rat × Rat) → List Rat
  | [] => []
  | (clk, d) :: rest =>
    let st := max cursor clk
    st :: playStarts (st + d) rest

/-- A live-session state with an empty transcript, an empty pending buffer
and no scheduled audio, used to instantiate theorems at concrete inputs. -/
def baseState : AppState where
  status := .connected
  isThinking := false
  isSpeaking := false
  inputValue := ""
  transcriptions := []
  sessionOpen := true
  scriptProcessorConnected := true
  nextStartTime := 0
  audioSources := []
  pending := ⟨"", ""⟩

lemma dropWhile_eq_append {α : Type} (p : α → Bool) (l : List α) :
    ∃ t, t ++ l.dropWhile p = l := by
  induction l with
  | nil => exact ⟨[], rfl⟩
  | cons a l ih =>
    by_cases h : p a
    · obtain ⟨t, ht⟩ := ih
      exact ⟨a :: t, by simp [List.dropWhile_cons, h, ht]⟩
    · exact ⟨[], by simp [List.dropWhile_cons, h]⟩

lemma head?_dropWhile_false {α : Type} {p : α → Bool} {l : List α} {c : α}
    (h : (l.dropWhile p).head? = some c) : p c = false := by
  have hm := List.head?_dropWhile_not p l
  rw [h] at hm
  exact hm

lemma jsTrim_data_eq (s : String) :
    (jsTrim s).data =
      ((s.data.dropWhile isJsWhitespace).reverse.dropWhile isJsWhitespace).reverse :=
  rfl

lemma jsTrim_split (s : String) :
    ∃ t, s.data.dropWhile isJsWhitespace = (jsTrim s).data ++ t := by
  obtain ⟨t, ht⟩ :=
    dropWhile_eq_append isJsWhitespace (s.data.dropWhile isJsWhitespace).reverse
  refine ⟨t.reverse, ?_⟩
  rw [jsTrim_data_eq]
  have := congrArg List.reverse ht
  simpa [List.reverse_append] using this.symm

lemma jsTrim_sublist (s : String) : (jsTrim s).data.Sublist s.data := by
  obtain ⟨t, ht⟩ := jsTrim_split s
  have h1 : (jsTrim s).data.Sublist (s.data.dropWhile isJsWhitespace) := by
    rw [ht]; exact List.sublist_append_left _ _
  exact h1.trans (List.dropWhile_sublist _)

lemma jsTrim_head {s : String} {c : Char} (h : (jsTrim s).data.head? = some c) :
    isJsWhitespace c = false := by
  obtain ⟨t, ht⟩ := jsTrim_split s
  have hne : (jsTrim s).data ≠ [] := by
    intro hnil; rw [hnil] at h; simp at h
  have : (s.data.dropWhile isJsWhitespace).head? = some c := by
    rw [ht, List.head?_append_of_ne_nil _ hne]; exact h
  exact head?_dropWhile_false this

lemma jsTrim_getLast {s : String} {c : Char}
    (h : (jsTrim s).data.getLast? = some c) : isJsWhitespace c = false := by
  rw [jsTrim_data_eq, List.getLast?_reverse] at h
  exact head?_dropWhile_false h

lemma mem_filterNonAscii {s : String} {c : Char}
    (h : c ∈ (filterNonAscii s).data) : c.val ≤ 0x7F := by
  have : c ∈ s.data.filter (fun c => c.val ≤ 0x7F) := h
  rw [List.mem_filter] at this
  simpa using this.2

/-- C2: `filterHallucinations` only removes characters, keeps only the 7-bit
range (every character of the result is a character of the input with code
at most `0x7F`, in order), leaves no surrounding whitespace, and on the
spec's examples returns `"Hello"` and `""`. -/
theorem C2_filterHallucinations_spec (s : String) :
    (∀ c ∈ (filterHallucinations s).data, c.val ≤ 0x7F) ∧
    (filterHallucinations s).data.Sublist s.data ∧
    (∀ c, (filterHallucinations s).data.head? = some c → isJsWhitespace c = false) ∧
    (∀ c, (filterHallucinations s).data.getLast? = some c → isJsWhitespace c = false) ∧
    filterHallucinations "Hello आई कशी आहेस" = "Hello" ∧
    filterHallucinations "   " = "" := by
  refine ⟨?_, ?_, ?_, ?_, by decide, by decide⟩
  · intro c hc
    exact mem_filterNonAscii ((jsTrim_sublist (filterNonAscii s)).mem hc)
  · exact (jsTrim_sublist (filterNonAscii s)).trans (List.filter_sublist _)
  · intro c hc
    exact jsTrim_head hc
  · intro c hc
    exact jsTrim_getLast hc

/-- Closed instance of `C2_filterHallucinations_spec`: its bounded and
conditional parts applied at the concrete input `" hi आई "`. -/
theorem C2_filterHallucinations_spec_witness :
    ('h' : Char).val ≤ 0x7F ∧ isJsWhitespace 'h' = false ∧
    isJsWhitespace 'i' = false :=
  ⟨(C2_filterHallucinations_spec " hi आई ").1 'h' (by decide),
   (C2_filterHallucinations_spec " hi आई ").2.2.1 'h' (by decide),
   (C2_filterHallucinations_spec " hi आई ").2.2.2.1 'i' (by decide)⟩

/-- C3: on a turn-complete event both sides of the pending buffer are
filtered; a user entry is appended exactly when the filtered input is
non-empty and a model entry exactly when the filtered output is non-empty,
user before model; the pending buffer is empty immediately afterwards (so a
turn filtering to empty on both sides appends zero entries); on the spec's
example turn the flush appends exactly the two entries
`[user "mala bhuk lagli", model "chala jevayla"]`. -/
theorem C3_turnComplete_flush (s : AppState) (clock : Rat)
    (idIn idOut : String) (ts : Int) :
    (onmessage s turnCompleteMsg clock idIn idOut ts).transcriptions
      = s.transcriptions
        ++ (if filterHallucinations s.pending.input = "" then []
            else [⟨idIn, Role.user, filterHallucinations s.pending.input, ts⟩])
        ++ (if filterHallucinations s.pending.output = "" then []
            else [⟨idOut, Role.model, filterHallucinations s.pending.output, ts⟩]) ∧
    (onmessage s turnCompleteMsg clock idIn idOut ts).pending = ⟨"", ""⟩ ∧
    (onmessage s turnCompleteMsg clock idIn idOut ts).isThinking = false ∧
    (onmessage { baseState with pending := ⟨"mala bhuk lagli", "chala jevayla जाऊया"⟩ }
        turnCompleteMsg 0 "i1" "i2" 7).transcriptions
      = [⟨"i1", Role.user, "mala bhuk lagli", 7⟩,
         ⟨"i2", Role.model, "chala jevayla", 7⟩] ∧
    (onmessage { baseState with pending := ⟨"   ", "जाऊया"⟩ }
        turnCompleteMsg 0 "i1" "i2" 7).transcriptions = [] ∧
    (onmessage { baseState with pending := ⟨"   ", "जाऊया"⟩ }
        turnCompleteMsg 0 "i1" "i2" 7).pending = ⟨"", ""⟩ := by
  refine ⟨?_, ?_, ?_, by decide, by decide, by decide⟩
  · by_cases h1 : filterHallucinations s.pending.input = "" <;>
      by_cases h2 : filterHallucinations s.pending.output = "" <;>
      simp [onmessage, turnCompleteMsg, h1, h2]
  · simp [onmessage, turnCompleteMsg]
  · simp [onmessage, turnCompleteMsg]

/-- The no-gap arrival condition: each chunk is processed while the device
clock has not yet passed the schedule cursor. -/
def noGaps : Rat → List (Rat × Rat) → Prop
  | _, [] => True
  | cur, (clk, d) :: rest => clk ≤ cur ∧ noGaps (cur + d) rest

/-- The contiguous schedule: starting from a cursor, each start time is the
previous start plus the previous duration. -/
def contigStarts : Rat → List Rat → List Rat
  | _, [] => []
  | c, d :: rest => c :: contigStarts (c + d) rest

lemma processChunks_startsOf (l : List (Rat × Rat)) : ∀ s : AppState,
    startsOf (processChunks s l) = startsOf s ++ playStarts s.nextStartTime l := by
  induction l with
  | nil => intro s; simp [processChunks, playStarts]
  | cons p rest ih =>
    intro s
    obtain ⟨clk, d⟩ := p
    rw [processChunks, ih]
    simp [onmessage, audioMsg, startsOf, playStarts, List.append_assoc]

lemma playStarts_head {l : List (Rat × Rat)} {c b : Rat}
    (h : (playStarts c l).head? = some b) : c ≤ b := by
  cases l with
  | nil => simp [playStarts] at h
  | cons p rest =>
    obtain ⟨clk, d⟩ := p
    simp [playStarts] at h
    rw [← h]
    exact le_max_left _ _

lemma playStarts_chain (l : List (Rat × Rat)) : ∀ c : Rat, (∀ p ∈ l, 0 ≤ p.2) →
    List.Chain' (· ≤ ·) (playStarts c l) := by
  induction l with
  | nil => intro c _; simp [playStarts]
  | cons p rest ih =>
    intro c hd
    obtain ⟨clk, d⟩ := p
    rw [playStarts, List.chain'_cons']
    constructor
    · intro b hb
      have h0 : 0 ≤ d := hd (clk, d) (by simp)
      have hb' : max c clk + d ≤ b := playStarts_head (Option.mem_def.mp hb)
      have : max c clk ≤ max c clk + d := by linarith
      exact this.trans hb'
    · exact ih _ (fun q hq => hd q (List.mem_cons_of_mem _ hq))

lemma playStarts_noGaps (l : List (Rat × Rat)) : ∀ c, noGaps c l →
    playStarts c l = contigStarts c (l.map Prod.snd) := by
  induction l with
  | nil => intro c _; simp [playStarts, contigStarts]
  | cons p rest ih =>
    intro c h
    obtain ⟨clk, d⟩ := p
    obtain ⟨h1, h2⟩ := h
    simp [playStarts, contigStarts, max_eq_left h1, ih _ h2]

/-- C4 (counterexample): the claim's contiguity `start(i+1) = start(i) + d(i)`
fails for the arrival sequence in which the second chunk (duration 1) is
processed when the device clock has already advanced to 5 while the first
chunk (duration 1) was scheduled at clock 0 from cursor 0: the scheduled
starts are `[0, 5]`, and `5 ≠ 0 + 1`. -/
theorem C4_schedule_counterexample :
    startsOf (processChunks baseState [((0 : Rat), 1), (5, 1)]) = [0, 5] ∧
    ¬ ((5 : Rat) = 0 + 1) := by
  constructor
  · rw [processChunks_startsOf]
    norm_num [startsOf, baseState, playStarts]
  · norm_num

/-- C4 (amended): processing chunks in arrival order, each chunk starts at
`max(previous cursor, current device clock)` and the cursor then advances by
exactly the chunk's duration; the scheduled start times are non-decreasing
(for non-negative durations), and they are contiguous
(`start(i+1) = start(i) + d(i)`) whenever each chunk is processed before the
device clock passes the schedule cursor. -/
theorem C4_schedule_amended (s : AppState) (l : List (Rat × Rat))
    (hs : s.audioSources = []) (hd : ∀ p ∈ l, 0 ≤ p.2) :
    startsOf (processChunks s l) = playStarts s.nextStartTime l ∧
    List.Chain' (· ≤ ·) (startsOf (processChunks s l)) ∧
    (∀ d clock, (onmessage s (audioMsg d) clock "" "" 0).nextStartTime
        = max s.nextStartTime clock + d) ∧
    (∀ d clock, startsOf (onmessage s (audioMsg d) clock "" "" 0)
        = [max s.nextStartTime clock]) ∧
    (noGaps s.nextStartTime l →
      startsOf (processChunks s l) = contigStarts s.nextStartTime (l.map Prod.snd)) := by
  have hb : startsOf s = [] := by simp [startsOf, hs]
  have h1 : startsOf (processChunks s l) = playStarts s.nextStartTime l := by
    rw [processChunks_startsOf, hb]
    simp
  refine ⟨h1, ?_, ?_, ?_, ?_⟩
  · rw [h1]
    exact playStarts_chain l _ hd
  · intro d clock
    simp [onmessage, audioMsg]
  · intro d clock
    simp [onmessage, audioMsg, startsOf, hs]
  · intro hg
    rw [h1]
    exact playStarts_noGaps l _ hg

/-- Closed instance of `C4_schedule_amended` at the two-chunk arrival
sequence `[(clock 0, duration 1), (clock 1, duration 2)]` from the empty
schedule. -/
theorem C4_schedule_amended_witness :
    baseState.audioSources = [] ∧ (∀ p ∈ [((0 : Rat), (1 : Rat)), (1, 2)], 0 ≤ p.2) ∧
    startsOf (processChunks baseState [((0 : Rat), 1), (1, 2)])
      = playStarts baseState.nextStartTime [((0 : Rat), 1), (1, 2)] :=
  ⟨rfl, by norm_num,
   (C4_schedule_amended baseState [((0 : Rat), 1), (1, 2)] rfl (by norm_num)).1⟩

/-- C5: an interruption event stops every source in the active set (a stop
that throws on an already-finished source is swallowed, leaving that source
as it was, and does not abort the pass), clears the set, resets the schedule
cursor to 0 and clears the speaking flag; the next chunk scheduled after the
interruption starts at `max 0 clock`, which is no earlier than the current
device clock. -/
theorem C5_interruption (s : AppState) (clock clock2 d : Rat)
    (idIn idOut : String) (ts : Int) :
    (onmessage s interruptedMsg clock idIn idOut ts).audioSources = [] ∧
    (onmessage s interruptedMsg clock idIn idOut ts).nextStartTime = 0 ∧
    (onmessage s interruptedMsg clock idIn idOut ts).isSpeaking = false ∧
    (∀ src ∈ s.audioSources,
      (src.stopFails = false → (tryStop src).stopped = true) ∧
      (src.stopFails = true → tryStop src = src)) ∧
    stopAll s.audioSources = s.audioSources.map tryStop ∧
    startsOf (onmessage (onmessage s interruptedMsg clock idIn idOut ts)
        (audioMsg d) clock2 idIn idOut ts) = [max 0 clock2] ∧
    clock2 ≤ max 0 clock2 := by
  refine ⟨?_, ?_, ?_, ?_, rfl, ?_, le_max_right _ _⟩
  · simp [onmessage, interruptedMsg]
  · simp [onmessage, interruptedMsg]
  · simp [onmessage, interruptedMsg]
  · intro src _
    constructor
    · intro h
      simp [tryStop, h]
    · intro h
      simp [tryStop, h]
  · simp [onmessage, interruptedMsg, audioMsg, startsOf]

/-- Closed instance of `C5_interruption`: an interruption at clock 4 of a
state holding one stoppable and one already-finished source, followed by a
chunk at clock 3. -/
theorem C5_interruption_witness :
    (onmessage { baseState with
        audioSources := [⟨2, false, false⟩, ⟨1, true, false⟩],
        nextStartTime := 5, isSpeaking := true }
      interruptedMsg 4 "a" "b" 0).audioSources = [] ∧
    (tryStop ⟨2, false, false⟩).stopped = true ∧
    tryStop ⟨1, true, false⟩ = ⟨1, true, false⟩ :=
  ⟨(C5_interruption { baseState with
        audioSources := [⟨2, false, false⟩, ⟨1, true, false⟩],
        nextStartTime := 5, isSpeaking := true } 4 0 1 "a" "b" 0).1,
   ((C5_interruption { baseState with
        audioSources := [⟨2, false, false⟩, ⟨1, true, false⟩],
        nextStartTime := 5, isSpeaking := true } 4 0 1 "a" "b" 0).2.2.2.1
      ⟨2, false, false⟩ (by simp)).1 rfl,
   ((C5_interruption { baseState with
        audioSources := [⟨2, false, false⟩, ⟨1, true, false⟩],
        nextStartTime := 5, isSpeaking := true } 4 0 1 "a" "b" 0).2.2.2.1
      ⟨1, true, false⟩ (by simp)).2 rfl⟩

/-- C6: `stopSession` from any state closes the transport handle, disconnects
the capture processor, clears the active sources (each source the stop pass
reaches is stopped unless its stop throws, which is swallowed), resets the
schedule cursor to 0, clears the speaking and thinking flags and ends
disconnected, while leaving the transcript log (and the other fields) alone;
it is idempotent; and the transport `onerror` and `onclose` callbacks perform
this identical teardown, ending disconnected rather than in the error
state. -/
theorem C6_stopSession (s : AppState) :
    (stopSession s).sessionOpen = false ∧
    (stopSession s).scriptProcessorConnected = false ∧
    (stopSession s).audioSources = [] ∧
    (stopSession s).nextStartTime = 0 ∧
    (stopSession s).status = ConnectionStatus.disconnected ∧
    (stopSession s).isSpeaking = false ∧
    (stopSession s).isThinking = false ∧
    (stopSession s).transcriptions = s.transcriptions ∧
    (∀ src ∈ s.audioSources, src.stopFails = false → (tryStop src).stopped = true) ∧
    stopSession (stopSession s) = stopSession s ∧
    onerror s = stopSession s ∧
    onclose s = stopSession s := by
  refine ⟨rfl, rfl, rfl, rfl, rfl, rfl, rfl, rfl, ?_, rfl, rfl, rfl⟩
  intro src _ h
  simp [tryStop, h]

/-- Closed instance of `C6_stopSession` at a fully live state, including the
per-source stop conclusion. -/
theorem C6_stopSession_witness :
    (stopSession { baseState with
        audioSources := [⟨2, false, false⟩], isSpeaking := true,
        isThinking := true, nextStartTime := 3 }).status
      = ConnectionStatus.disconnected ∧
    (tryStop ⟨2, false, false⟩).stopped = true :=
  ⟨(C6_stopSession { baseState with
        audioSources := [⟨2, false, false⟩], isSpeaking := true,
        isThinking := true, nextStartTime := 3 }).2.2.2.2.1,
   (C6_stopSession { baseState with
        audioSources := [⟨2, false, false⟩], isSpeaking := true,
        isThinking := true, nextStartTime := 3 }).2.2.2.2.2.2.2.2.1
      ⟨2, false, false⟩ (by simp) rfl⟩

/-- C7: when `startSession` fails at either fallible step (microphone
permission acquisition or the transport connect), the resulting state is the
original state with status set to `error`: in particular the transcript log
is unmodified and no further transition is taken. -/
theorem C7_startSession_failure (s : AppState) (micOk connectOk : Bool)
    (h : micOk = false ∨ connectOk = false) :
    (startSession s micOk connectOk).status = ConnectionStatus.error ∧
    (startSession s micOk connectOk).transcriptions = s.transcriptions ∧
    startSession s micOk connectOk = { s with status := ConnectionStatus.error } := by
  have he : startSession s micOk connectOk = { s with status := ConnectionStatus.error } := by
    rcases h with h | h
    · simp [startSession, h]
    · rcases Bool.eq_false_or_eq_true micOk with hm | hm <;>
        simp [startSession, hm, h]
  rw [he]
  exact ⟨rfl, rfl, rfl⟩

/-- Closed instance of `C7_startSession_failure`: permission denied from the
base state. -/
theorem C7_startSession_failure_witness :
    ((false = false ∨ true = false) ∧
      (startSession baseState false true).status = ConnectionStatus.error) ∧
    (startSession baseState false true).transcriptions = baseState.transcriptions :=
  ⟨⟨Or.inl rfl, (C7_startSession_failure baseState false true (Or.inl rfl)).1⟩,
   (C7_startSession_failure baseState false true (Or.inl rfl)).2.1⟩

/-- The pending buffer after the fragment-accumulation branches of one
message (lines 179-184): the output fragment is appended, or else the input
fragment, or else the buffer is unchanged. -/
def pendingAfterFrags (p : PendingTurn) (m : ServerMessage) : PendingTurn :=
  match m.outputTranscription with
  | some t => { p with output := p.output ++ t }
  | none =>
    match m.inputTranscription with
    | some t => { p with input := p.input ++ t }
    | none => p

/-- The entries a turn-complete flush appends for a given pending buffer:
a user entry when the filtered input is non-empty, then a model entry when
the filtered output is non-empty. -/
def flushEntries (p : PendingTurn) (idIn idOut : String) (ts : Int) :
    List TranscriptionEntry :=
  (if filterHallucinations p.input = "" then []
   else [⟨idIn, Role.user, filterHallucinations p.input, ts⟩])
  ++ (if filterHallucinations p.output = "" then []
      else [⟨idOut, Role.model, filterHallucinations p.output, ts⟩])

lemma onmessage_transcriptions (s : AppState) (m : ServerMessage) (clock : Rat)
    (idIn idOut : String) (ts : Int) :
    (onmessage s m clock idIn idOut ts).transcriptions
      = s.transcriptions
        ++ (if m.turnComplete then
              flushEntries (pendingAfterFrags s.pending m) idIn idOut ts
            else []) := by
  obtain ⟨ad, intr, outT, inT, tc⟩ := m
  cases ad <;> cases intr <;> cases outT <;> cases inT <;> cases tc <;>
    simp [onmessage, pendingAfterFrags, flushEntries] <;>
    split_ifs <;>
    simp_all

lemma handleTextEnter_transcriptions (s : AppState) (text : String)
    (reply : Option String) (idU idM : String) (tsU tsM : Int) :
    (handleTextEnter s text reply idU idM tsU tsM).transcriptions
      = s.transcriptions
        ++ (if jsTrim text = "" then []
            else
              [(⟨idU, Role.user, text, tsU⟩ : TranscriptionEntry)]
                ++ (match reply with
                    | some r => [⟨idM, Role.model, filterHallucinations r, tsM⟩]
                    | none => [])) := by
  cases reply <;> by_cases h : jsTrim text = "" <;> simp [handleTextEnter, h]

/-- C8: the transcript log is append-only under every operation: any inbound
message (hence any turn-complete flush), any `handleTextEnter` call, any
`startSession` call and any `stopSession` call leave the existing entries in
place and in order, at most appending new entries at the end. -/
theorem C8_append_only (s : AppState) (m : ServerMessage) (clock : Rat)
    (idIn idOut : String) (ts : Int) (text : String) (reply : Option String)
    (idU idM : String) (tsU tsM : Int) (micOk connectOk : Bool) :
    (∃ t, (onmessage s m clock idIn idOut ts).transcriptions
        = s.transcriptions ++ t) ∧
    (∃ t, (handleTextEnter s text reply idU idM tsU tsM).transcriptions
        = s.transcriptions ++ t) ∧
    (startSession s micOk connectOk).transcriptions = s.transcriptions ∧
    (stopSession s).transcriptions = s.transcriptions := by
  refine ⟨⟨_, onmessage_transcriptions s m clock idIn idOut ts⟩,
          ⟨_, handleTextEnter_transcriptions s text reply idU idM tsU tsM⟩,
          ?_, rfl⟩
  cases micOk <;> cases connectOk <;> simp [startSession]

/-- C9: when the `handleTextEnter` request succeeds, the raw (unfiltered)
user text and then the filtered reply are appended, the model entry being
appended even when the reply filters to the empty string, and the thinking
flag ends cleared — unlike the turn-complete flush, which filters both sides
and skips empty entries. -/
theorem C9_sendText_success (s : AppState) (text r : String) (idU idM : String)
    (tsU tsM : Int) (h : jsTrim text ≠ "") :
    (handleTextEnter s text (some r) idU idM tsU tsM).transcriptions
      = s.transcriptions
        ++ [⟨idU, Role.user, text, tsU⟩,
            ⟨idM, Role.model, filterHallucinations r, tsM⟩] ∧
    (handleTextEnter s text (some r) idU idM tsU tsM).isThinking = false := by
  simp [handleTextEnter, h]

/-- Closed instance of `C9_sendText_success`: the reply `"जाऊया"` filters to
`""`, yet a model entry (with empty text) is appended after the raw user
entry. -/
theorem C9_sendText_success_witness :
    jsTrim "hi" ≠ "" ∧
    (handleTextEnter baseState "hi" (some "जाऊया") "a" "b" 1 2).transcriptions
      = [⟨"a", Role.user, "hi", 1⟩, ⟨"b", Role.model, "", 2⟩] :=
  ⟨by decide,
   by
    have hc := (C9_sendText_success baseState "hi" "जाऊया" "a" "b" 1 2 (by decide)).1
    simpa [baseState] using hc⟩

/-- C10: calling `handleTextEnter` with text whose trim is empty is a
complete no-op: the returned state is the input state (no entry appended,
thinking not set), for every possible request outcome (so no request effect
is observable). -/
theorem C10_sendText_empty_noop (s : AppState) (text : String)
    (reply : Option String) (idU idM : String) (tsU tsM : Int)
    (h : jsTrim text = "") :
    handleTextEnter s text reply idU idM tsU tsM = s := by
  simp [handleTextEnter, h]

/-- Closed instance of `C10_sendText_empty_noop` at the whitespace-only
input `"   "`. -/
theorem C10_sendText_empty_noop_witness :
    jsTrim "   " = "" ∧ handleTextEnter baseState "   " none "a" "b" 1 2 = baseState :=
  ⟨by decide, C10_sendText_empty_noop baseState "   " none "a" "b" 1 2 (by decide)⟩

/-- C1 (counterexample): the claim that a failing request appends no
transcript entry for that call is false: with an empty starting log, calling
`handleTextEnter` with text `"hi"` and a failing request leaves one appended
entry (the user entry, pushed before the request was issued). -/
theorem C1_sendText_failure_counterexample :
    (handleTextEnter baseState "hi" none "a" "b" 1 2).transcriptions
      = [⟨"a", Role.user, "hi", 1⟩] ∧
    (handleTextEnter baseState "hi" none "a" "b" 1 2).transcriptions
      ≠ baseState.transcriptions := by
  constructor
  · simp [handleTextEnter, baseState]
    decide
  · simp [handleTextEnter, baseState]
    decide

/-- C1 (amended): when the `handleTextEnter` request fails, the failure is
swallowed (the call still returns a well-defined state), the thinking flag
ends cleared (never left stuck true), and no model entry is appended for
that call: the only appended entry is the user entry, pushed before the
request was issued, which remains in the log. -/
theorem C1_sendText_failure_amended (s : AppState) (text : String)
    (idU idM : String) (tsU tsM : Int) (h : jsTrim text ≠ "") :
    (handleTextEnter s text none idU idM tsU tsM).isThinking = false ∧
    (handleTextEnter s text none idU idM tsU tsM).transcriptions
      = s.transcriptions ++ [⟨idU, Role.user, text, tsU⟩] ∧
    (∀ e ∈ (handleTextEnter s text none idU idM tsU tsM).transcriptions,
      e ∉ s.transcriptions → e.role = Role.user) := by
  refine ⟨by simp [handleTextEnter, h], by simp [handleTextEnter, h], ?_⟩
  intro e he hne
  rw [show (handleTextEnter s text none idU idM tsU tsM).transcriptions
      = s.transcriptions ++ [⟨idU, Role.user, text, tsU⟩] from by
        simp [handleTextEnter, h]] at he
  rcases List.mem_append.mp he with h1 | h1
  · exact absurd h1 hne
  · rw [List.mem_singleton.mp h1]

/-- Closed instance of `C1_sendText_failure_amended` at text `"hi"` from the
base state. -/
theorem C1_sendText_failure_amended_witness :
    jsTrim "hi" ≠ "" ∧
    (handleTextEnter baseState "hi" none "a" "b" 1 2).isThinking = false ∧
    (handleTextEnter baseState "hi" none "a" "b" 1 2).transcriptions
      = baseState.transcriptions ++ [⟨"a", Role.user, "hi", 1⟩] :=
  ⟨by decide,
   (C1_sendText_failure_amended baseState "hi" "a" "b" 1 2 (by decide)).1,
   (C1_sendText_failure_amended baseState "hi" "a" "b" 1 2 (by decide)).2.1⟩
